import Mathlib

/-!
Verification of the watermelon ripeness detector (`src/pages/index.vue`).

The script part of the page contains the whole algorithmic core:
sensitivity-to-threshold mapping (`absoluteThreshold`, `relativeThreshold`),
the per-frame thump detection scan (`processAudio` inside `detectThump`),
the ripeness scoring model (`calculateRipeness`), and the session lifecycle
(`startDetection`, `isMassValid`, the `result` / `error` / `isListening`
reactive state).

JavaScript numbers are embedded as `ℚ` (all arithmetic in the source stays
well inside exact double range, except the `massKg ** (2 / 3)` power, which
is handled by passing its value `p` together with its defining property
`p ^ 3 = massKg ^ 2`).  Byte spectrum magnitudes (`Uint8Array` entries,
0..255) are embedded as `ℕ`.  The one place where IEEE semantics matters is
the degenerate band `maxIndex = minIndex`, where the source divides `0 / 0`
giving `NaN`, and every comparison with `NaN` is false; the embedding makes
that branch explicit.
-/

/-- Event emitted when a frame passes the detection rule: the dominant
frequency of the thump, `peakIndex * (sampleRate / fftSize)`. -/
structure DetectionEvent where
  baseFrequencyHz : ℚ
deriving DecidableEq

/-- Loop state of the scan in `processAudio`:
`let peakAmplitude = 0; let peakIndex = 0; let totalAmplitude = 0`. -/
structure ScanAcc where
  peakAmplitude : ℕ
  peakIndex : ℕ
  totalAmplitude : ℕ
deriving DecidableEq

/-- One iteration of the `for (let i = minIndex; i < maxIndex; i++)` loop:
`totalAmplitude += dataArray[i]`, and when `dataArray[i] > peakAmplitude`
both `peakAmplitude` and `peakIndex` are updated. -/
def scanStep (data : List ℕ) (acc : ScanAcc) (i : ℕ) : ScanAcc :=
  let v := data.getD i 0
  if acc.peakAmplitude < v then
    { peakAmplitude := v, peakIndex := i, totalAmplitude := acc.totalAmplitude + v }
  else
    { acc with totalAmplitude := acc.totalAmplitude + v }

/-- The whole scan loop of `processAudio` over bins `[lo, hi)`. -/
def scanBand (data : List ℕ) (lo hi : ℕ) : ScanAcc :=
  (List.range' lo (hi - lo)).foldl (scanStep data) ⟨0, 0, 0⟩

/-- The magnitudes of the bins in the detection band `[lo, hi)`. -/
def bandMagnitudes (data : List ℕ) (lo hi : ℕ) : List ℕ :=
  (List.range' lo (hi - lo)).map (fun i => data.getD i 0)

/-- JavaScript `Math.round` for the nonnegative arguments that occur here:
round half up, `⌊x + 1/2⌋`. -/
def jsRound (q : ℚ) : ℤ :=
  ⌊q + 1 / 2⌋

/-- `minIndex = Math.round(relevantFreqMin / (sampleRate / fftSize))` with
`relevantFreqMin = 100`. -/
def minIndexOf (sampleRate fftSize : ℚ) : ℕ :=
  (jsRound (100 / (sampleRate / fftSize))).toNat

/-- `maxIndex = Math.round(relevantFreqMax / (sampleRate / fftSize))` with
`relevantFreqMax = 300`. -/
def maxIndexOf (sampleRate fftSize : ℚ) : ℕ :=
  (jsRound (300 / (sampleRate / fftSize))).toNat

/-- `const absoluteThreshold = computed(() => 160 - (sensitivity.value * 10))`. -/
def absoluteThreshold (sensitivity : ℚ) : ℚ :=
  160 - sensitivity * 10

/-- `const relativeThreshold = computed(() => 45 - (sensitivity.value * 3))`. -/
def relativeThreshold (sensitivity : ℚ) : ℚ :=
  45 - sensitivity * 3

/-- `const isMassValid = computed(() => massKg.value > 0)`. -/
def isMassValid (massKg : ℚ) : Bool :=
  decide (0 < massKg)

/-- Pure core of one invocation of `processAudio` in `detectThump`: scan the
band, compute the average, and test the two-part detection rule.  `none`
means the frame produced no event (the source then schedules the next
frame).  When `maxIndex = minIndex` the source computes
`averageAmplitude = 0 / 0 = NaN` and both `NaN` comparisons are false, so
no event is possible; that case is the explicit first branch. -/
def processAudio (data : List ℕ) (absT relT : ℚ) (sampleRate fftSize : ℚ) :
    Option DetectionEvent :=
  let lo := minIndexOf sampleRate fftSize
  let hi := maxIndexOf sampleRate fftSize
  let acc := scanBand data lo hi
  if hi = lo then
    none
  else
    let averageAmplitude : ℚ := (acc.totalAmplitude : ℚ) / ((hi : ℚ) - (lo : ℚ))
    if (acc.peakAmplitude : ℚ) > absT ∧
        (acc.peakAmplitude : ℚ) > averageAmplitude + relT then
      some ⟨(acc.peakIndex : ℚ) * (sampleRate / fftSize)⟩
    else
      none

/-- The `result` record filled by `calculateRipeness`. -/
structure RipenessResult where
  baseFrequency : ℚ
  ripenessIndex : ℚ
  ripenessScore : ℚ
  sweetnessBrix : ℚ
  verdict : String
  ripenessClass : String
deriving DecidableEq

/-- The `result.verdict` branch of `calculateRipeness`. -/
def verdictOf (ripenessIndex : ℚ) : String :=
  if ripenessIndex < 74000 then "✅ 恰到好处"
  else if ripenessIndex < 85000 then "🤔 听起来不太妙"
  else "❌ 生瓜蛋子"

/-- The `result.ripenessClass` branch of `calculateRipeness`. -/
def ripenessClassOf (ripenessIndex : ℚ) : String :=
  if ripenessIndex < 74000 then "ripe"
  else if ripenessIndex < 85000 then "borderline"
  else "unripe"

/-- `result.sweetnessBrix = Math.max(5, Math.min(13, 12 - 4 * ((ripenessIndex - 60000) / 30000)))`. -/
def sweetnessOf (ripenessIndex : ℚ) : ℚ :=
  max 5 (min 13 (12 - 4 * ((ripenessIndex - 60000) / 30000)))

/-- `result.ripenessScore = Math.max(0, Math.min(100, 100 * (95000 - ripenessIndex) / (95000 - 60000)))`. -/
def scoreOf (ripenessIndex : ℚ) : ℚ :=
  max 0 (min 100 (100 * (95000 - ripenessIndex) / (95000 - 60000)))

/-- `calculateRipeness(frequency)`: guard `if (massKg.value <= 0) return`
(note: a silent early return, nothing is thrown or recorded), then
`ripenessIndex = f ** 2 * m ** (2 / 3)` and the derived fields.  `p` stands
for the value of `massKg ** (2 / 3)`; theorems characterize it by
`p ^ 3 = massKg ^ 2` and `0 ≤ p`. -/
def calculateRipeness (massKg frequency p : ℚ) : Option RipenessResult :=
  if massKg ≤ 0 then
    none
  else
    let ripenessIndex := frequency ^ 2 * p
    some
      { baseFrequency := frequency
        ripenessIndex := ripenessIndex
        ripenessScore := scoreOf ripenessIndex
        sweetnessBrix := sweetnessOf ripenessIndex
        verdict := verdictOf ripenessIndex
        ripenessClass := ripenessClassOf ripenessIndex }

/-- The reactive state the script mutates: `massKg`, `result`, `error`,
`isListening`.  `result` is `none` while the per-field values are `null`. -/
structure AppState where
  massKg : ℚ
  result : Option RipenessResult
  error : Option String
  isListening : Bool
deriving DecidableEq

/-- State effect of `calculateRipeness`: on the `massKg.value <= 0` guard it
returns without touching `result` or `error`; otherwise it stores the
computed record in `result`.  It never writes `error`. -/
def runCalculateRipeness (frequency p : ℚ) (st : AppState) : AppState :=
  match calculateRipeness st.massKg frequency p with
  | none => st
  | some r => { st with result := some r }

/-- State effect of `startDetection()`: if `navigator.mediaDevices` is
missing, set `error` and return; otherwise clear `result`, clear `error`,
set `isListening = true`, and try to open the microphone — on failure set
`error` and reset `isListening`.  The function never reads `massKg`. -/
def startDetection (supported captureOk : Bool) (st : AppState) : AppState :=
  if supported then
    let st1 : AppState := { st with result := none, error := none, isListening := true }
    if captureOk then st1
    else { st1 with error := some ("could-not-access-microphone"), isListening := false }
  else
    { st with error := some ("browser-does-not-support-audio-recording") }

/-- Modelled from the spec: the clamp that §4.1 of the specification asks
the sensitivity mapper to apply to its input (`clamp(s, 1, 20)`); the
source has no such operation, so this definition follows the spec words. -/
def specClamp (lo hi x : ℚ) : ℚ :=
  max lo (min hi x)

/-! ### Helper lemmas about the scan loop -/

lemma scanStep_of_lt (data : List ℕ) (acc : ScanAcc) (i : ℕ)
    (h : acc.peakAmplitude < data.getD i 0) :
    scanStep data acc i =
      ⟨data.getD i 0, i, acc.totalAmplitude + data.getD i 0⟩ := by
  unfold scanStep
  rw [if_pos h]

lemma scanStep_of_ge (data : List ℕ) (acc : ScanAcc) (i : ℕ)
    (h : ¬ acc.peakAmplitude < data.getD i 0) :
    scanStep data acc i =
      ⟨acc.peakAmplitude, acc.peakIndex, acc.totalAmplitude + data.getD i 0⟩ := by
  unfold scanStep
  rw [if_neg h]

lemma scanFold_total (data : List ℕ) :
    ∀ (n lo : ℕ) (acc : ScanAcc),
      ((List.range' lo n).foldl (scanStep data) acc).totalAmplitude
        = acc.totalAmplitude + ((List.range' lo n).map (fun i => data.getD i 0)).sum := by
  intro n
  induction n with
  | zero => intro lo acc; simp
  | succ n ih =>
      intro lo acc
      rw [List.range'_succ]
      simp only [List.foldl_cons, List.map_cons, List.sum_cons]
      rw [ih (lo + 1) (scanStep data acc lo)]
      by_cases hv : acc.peakAmplitude < data.getD lo 0
      · rw [scanStep_of_lt data acc lo hv]
        dsimp only
        omega
      · rw [scanStep_of_ge data acc lo hv]
        dsimp only
        omega

lemma scanFold_invariant (data : List ℕ) :
    ∀ (n lo : ℕ) (acc r : ScanAcc),
      r = (List.range' lo n).foldl (scanStep data) acc →
      (∀ i, lo ≤ i → i < lo + n → data.getD i 0 ≤ r.peakAmplitude)
      ∧ acc.peakAmplitude ≤ r.peakAmplitude
      ∧ ((r.peakAmplitude = acc.peakAmplitude ∧ r.peakIndex = acc.peakIndex)
         ∨ (lo ≤ r.peakIndex ∧ r.peakIndex < lo + n
            ∧ data.getD r.peakIndex 0 = r.peakAmplitude
            ∧ acc.peakAmplitude < r.peakAmplitude
            ∧ ∀ j, lo ≤ j → j < r.peakIndex → data.getD j 0 < r.peakAmplitude)) := by
  intro n
  induction n with
  | zero =>
      intro lo acc r hr
      simp only [List.range'] at hr
      subst hr
      refine ⟨?_, le_refl _, Or.inl ⟨rfl, rfl⟩⟩
      intro i h1 h2
      omega
  | succ n ih =>
      intro lo acc r hr
      rw [List.range'_succ, List.foldl_cons] at hr
      obtain ⟨ub, mono, disj⟩ := ih (lo + 1) (scanStep data acc lo) r hr
      by_cases hv : acc.peakAmplitude < data.getD lo 0
      · rw [scanStep_of_lt data acc lo hv] at mono disj
        simp only at mono disj
        refine ⟨?_, le_trans (le_of_lt hv) mono, ?_⟩
        · intro i h1 h2
          rcases Nat.eq_or_lt_of_le h1 with h | h
          · subst h; exact mono
          · exact ub i h (by omega)
        · rcases disj with ⟨hpeak, hidx⟩ | ⟨h1, h2, h3, h4, h5⟩
          · refine Or.inr ⟨hidx ▸ le_refl lo, by omega, ?_, ?_, ?_⟩
            · rw [hidx, hpeak]
            · rw [hpeak]; exact hv
            · intro j hj1 hj2
              rw [hidx] at hj2
              omega
          · refine Or.inr ⟨by omega, by omega, h3, lt_trans hv h4, ?_⟩
            intro j hj1 hj2
            rcases Nat.eq_or_lt_of_le hj1 with h | h
            · subst h; exact h4
            · exact h5 j h hj2
      · rw [scanStep_of_ge data acc lo hv] at mono disj
        simp only at mono disj
        refine ⟨?_, mono, ?_⟩
        · intro i h1 h2
          rcases Nat.eq_or_lt_of_le h1 with h | h
          · subst h; exact le_trans (Nat.le_of_not_lt hv) mono
          · exact ub i h (by omega)
        · rcases disj with ⟨hpeak, hidx⟩ | ⟨h1, h2, h3, h4, h5⟩
          · exact Or.inl ⟨hpeak, hidx⟩
          · refine Or.inr ⟨by omega, by omega, h3, h4, ?_⟩
            intro j hj1 hj2
            rcases Nat.eq_or_lt_of_le hj1 with h | h
            · subst h; exact lt_of_le_of_lt (Nat.le_of_not_lt hv) h4
            · exact h5 j h hj2

lemma scanBand_total (data : List ℕ) (lo hi : ℕ) :
    (scanBand data lo hi).totalAmplitude = (bandMagnitudes data lo hi).sum := by
  unfold scanBand bandMagnitudes
  rw [scanFold_total data (hi - lo) lo ⟨0, 0, 0⟩]
  dsimp only
  omega

lemma bandMagnitudes_length (data : List ℕ) (lo hi : ℕ) :
    (bandMagnitudes data lo hi).length = hi - lo := by
  simp [bandMagnitudes]

lemma scanBand_peak_ub (data : List ℕ) (lo hi : ℕ) :
    ∀ x ∈ bandMagnitudes data lo hi, x ≤ (scanBand data lo hi).peakAmplitude := by
  intro x hx
  obtain ⟨i, hi2, rfl⟩ := List.mem_map.mp hx
  obtain ⟨h1, h2⟩ := List.mem_range'_1.mp hi2
  exact (scanFold_invariant data (hi - lo) lo ⟨0, 0, 0⟩ (scanBand data lo hi) rfl).1 i h1 h2

lemma scanBand_peak_mem (data : List ℕ) (lo hi : ℕ) (hband : lo < hi) :
    (scanBand data lo hi).peakAmplitude ∈ bandMagnitudes data lo hi := by
  obtain ⟨ub, _, disj⟩ :=
    scanFold_invariant data (hi - lo) lo ⟨0, 0, 0⟩ (scanBand data lo hi) rfl
  dsimp only at disj
  rcases disj with ⟨hpeak, _⟩ | ⟨h1, h2, h3, _, _⟩
  · have h0 : data.getD lo 0 = 0 := by
      have := ub lo (le_refl lo) (by omega)
      omega
    rw [hpeak]
    simp only [bandMagnitudes]
    refine List.mem_map.mpr ⟨lo, List.mem_range'_1.mpr ⟨le_refl lo, by omega⟩, ?_⟩
    simp only [h0]
  · rw [← h3]
    simp only [bandMagnitudes]
    exact List.mem_map.mpr ⟨_, List.mem_range'_1.mpr ⟨h1, h2⟩, rfl⟩

lemma scanBand_peakIndex_spec (data : List ℕ) (lo hi : ℕ)
    (hpos : 0 < (scanBand data lo hi).peakAmplitude) :
    lo ≤ (scanBand data lo hi).peakIndex
    ∧ (scanBand data lo hi).peakIndex < hi
    ∧ data.getD (scanBand data lo hi).peakIndex 0 = (scanBand data lo hi).peakAmplitude
    ∧ ∀ j, lo ≤ j → j < (scanBand data lo hi).peakIndex →
        data.getD j 0 < (scanBand data lo hi).peakAmplitude := by
  obtain ⟨ub, _, disj⟩ :=
    scanFold_invariant data (hi - lo) lo ⟨0, 0, 0⟩ (scanBand data lo hi) rfl
  dsimp only at disj
  rcases disj with ⟨hpeak, _⟩ | ⟨h1, h2, h3, _, h5⟩
  · rw [hpeak] at hpos
    exact absurd hpos (by simp)
  · have hlohi : lo < hi := by
      by_contra hcon
      have hzero : hi - lo = 0 := by omega
      have hacc : (scanBand data lo hi) = ⟨0, 0, 0⟩ := by
        unfold scanBand
        rw [hzero]
        rfl
      rw [hacc] at hpos
      exact absurd hpos (by simp)
    exact ⟨h1, by omega, h3, h5⟩

lemma minIndexOf_le_maxIndexOf (sampleRate fftSize : ℚ)
    (hsr : 0 < sampleRate) (hfft : 0 < fftSize) :
    minIndexOf sampleRate fftSize ≤ maxIndexOf sampleRate fftSize := by
  unfold minIndexOf maxIndexOf jsRound
  have hk : 0 < sampleRate / fftSize := div_pos hsr hfft
  have h1 : (100 : ℚ) / (sampleRate / fftSize) ≤ 300 / (sampleRate / fftSize) := by
    gcongr
    norm_num
  exact Int.toNat_le_toNat (Int.floor_le_floor (by linarith))

/-! ### Scoring helper lemmas -/

lemma scoreOf_antitone (r1 r2 : ℚ) (h : r1 ≤ r2) : scoreOf r2 ≤ scoreOf r1 := by
  unfold scoreOf
  refine max_le_max (le_refl 0) (min_le_min (le_refl 100) ?_)
  have h2 : (95000 : ℚ) - r2 ≤ 95000 - r1 := by linarith
  linarith

lemma sweetnessOf_antitone (r1 r2 : ℚ) (h : r1 ≤ r2) : sweetnessOf r2 ≤ sweetnessOf r1 := by
  unfold sweetnessOf
  refine max_le_max (le_refl 5) (min_le_min (le_refl 13) ?_)
  linarith

lemma pow23_pos (massKg p : ℚ) (hm : 0 < massKg) (hp : p ^ 3 = massKg ^ 2) : 0 < p := by
  have h2 : 0 < massKg ^ 2 := by positivity
  have h3 : 0 < p ^ 3 := by rw [hp]; exact h2
  exact (Odd.pow_pos_iff (by decide)).mp h3

lemma ripe_ne_borderline : ("ripe" : String) ≠ "borderline" := by decide

/-! ### Claim theorems -/

/-- Claim C1: while listening, a frame produces a detection event if and
only if the band peak amplitude exceeds `absoluteThreshold` and exceeds the
band average plus `relativeThreshold`; the scanned `peakAmplitude` is the
maximum magnitude over bins `[minIndex, maxIndex)` (first two conjuncts),
the average is the arithmetic mean of those magnitudes, and the emitted
event carries `baseFrequencyHz = peakIndex * (sampleRate / fftSize)`.
Frames failing either condition emit nothing (the backward direction of the
equivalence). -/
theorem thump_detection_rule (data : List ℕ) (absT relT sampleRate fftSize : ℚ)
    (lo hi : ℕ) (hlo : lo = minIndexOf sampleRate fftSize)
    (hhi : hi = maxIndexOf sampleRate fftSize) (hband : lo < hi)
    (hlen : hi ≤ data.length) :
    (scanBand data lo hi).peakAmplitude ∈ bandMagnitudes data lo hi
    ∧ (∀ x ∈ bandMagnitudes data lo hi, x ≤ (scanBand data lo hi).peakAmplitude)
    ∧ ((processAudio data absT relT sampleRate fftSize).isSome ↔
        (((scanBand data lo hi).peakAmplitude : ℚ) > absT
          ∧ ((scanBand data lo hi).peakAmplitude : ℚ) >
              ((bandMagnitudes data lo hi).sum : ℚ) /
                ((bandMagnitudes data lo hi).length : ℚ) + relT))
    ∧ (∀ ev, processAudio data absT relT sampleRate fftSize = some ev →
        ev.baseFrequencyHz = ((scanBand data lo hi).peakIndex : ℚ) * (sampleRate / fftSize)) := by
  clear hlen
  have havg : ((bandMagnitudes data lo hi).sum : ℚ) / ((bandMagnitudes data lo hi).length : ℚ)
      = ((scanBand data lo hi).totalAmplitude : ℚ) / ((hi : ℚ) - (lo : ℚ)) := by
    rw [scanBand_total, bandMagnitudes_length]
    congr 1
    push_cast [le_of_lt hband]
    ring
  have hproc : processAudio data absT relT sampleRate fftSize =
      (if ((scanBand data lo hi).peakAmplitude : ℚ) > absT ∧
          ((scanBand data lo hi).peakAmplitude : ℚ) >
            ((scanBand data lo hi).totalAmplitude : ℚ) / ((hi : ℚ) - (lo : ℚ)) + relT then
        some ⟨((scanBand data lo hi).peakIndex : ℚ) * (sampleRate / fftSize)⟩
      else none) := by
    unfold processAudio
    rw [← hlo, ← hhi]
    rw [if_neg (by omega : ¬ hi = lo)]
  refine ⟨scanBand_peak_mem data lo hi hband, scanBand_peak_ub data lo hi, ?_, ?_⟩
  · rw [hproc, havg]
    by_cases hc : ((scanBand data lo hi).peakAmplitude : ℚ) > absT ∧
        ((scanBand data lo hi).peakAmplitude : ℚ) >
          ((scanBand data lo hi).totalAmplitude : ℚ) / ((hi : ℚ) - (lo : ℚ)) + relT
    · rw [if_pos hc]
      simpa using hc
    · rw [if_neg hc]
      simpa using hc
  · intro ev hev
    rw [hproc] at hev
    by_cases hc : ((scanBand data lo hi).peakAmplitude : ℚ) > absT ∧
        ((scanBand data lo hi).peakAmplitude : ℚ) >
          ((scanBand data lo hi).totalAmplitude : ℚ) / ((hi : ℚ) - (lo : ℚ)) + relT
    · rw [if_pos hc] at hev
      cases hev
      rfl
    · rw [if_neg hc] at hev
      cases hev

/-- Witness for C1: at 300 Hz sample rate with FFT size 3 the band is
`[1, 3)`; the frame `[0, 100, 0]` has peak 100, average 50, and with
thresholds 80 and 21 the detector fires. -/
theorem thump_detection_rule_witness :
    (processAudio [0, 100, 0] 80 21 300 3).isSome = true := by
  have h := thump_detection_rule [0, 100, 0] 80 21 300 3 1 3
    (by norm_num [minIndexOf, jsRound])
    (by norm_num [maxIndexOf, jsRound]; decide)
    (by norm_num) (by norm_num)
  refine h.2.2.1.mpr ?_
  norm_num [scanBand, scanStep, bandMagnitudes, List.range']

/-- Claim C7: whenever the derived band is degenerate
(`minIndex >= maxIndex`), `processAudio` emits no event regardless of the
frame magnitudes and thresholds.  Since the two bin indices come from
rounding `100/k` and `300/k` with the same positive `k`, the degenerate
case is exactly `minIndex = maxIndex`, where the source computes
`averageAmplitude = 0 / 0 = NaN` and the `NaN` comparison fails. -/
theorem degenerate_band_no_event (data : List ℕ) (absT relT sampleRate fftSize : ℚ)
    (hsr : 0 < sampleRate) (hfft : 0 < fftSize)
    (hdeg : maxIndexOf sampleRate fftSize ≤ minIndexOf sampleRate fftSize) :
    processAudio data absT relT sampleRate fftSize = none := by
  have hle := minIndexOf_le_maxIndexOf sampleRate fftSize hsr hfft
  unfold processAudio
  rw [if_pos (by omega)]

/-- Witness for C7: at sample rate 16384000 and FFT size 16384 both indices
round to 0, and a saturated frame with maximally permissive (negative)
thresholds still yields no event. -/
theorem degenerate_band_no_event_witness :
    maxIndexOf 16384000 16384 ≤ minIndexOf 16384000 16384
    ∧ processAudio [255, 255, 255] (-10) (-6) 16384000 16384 = none := by
  constructor
  · norm_num [minIndexOf, maxIndexOf, jsRound]
  · exact degenerate_band_no_event [255, 255, 255] (-10) (-6) 16384000 16384
      (by norm_num) (by norm_num) (by norm_num [minIndexOf, maxIndexOf, jsRound])

/-- Claim C9 (amended): when the band peak amplitude is positive,
`peakIndex` is the smallest bin index in `[lo, hi)` attaining the peak
magnitude, because the scan uses a strict greater-than comparison.  (When
every bin in the band is 0 the scan never updates `peakIndex`, which stays
at its initial value 0 — possibly outside the band; see the
counterexample.) -/
theorem peak_index_first_max (data : List ℕ) (lo hi : ℕ)
    (hpos : 0 < (scanBand data lo hi).peakAmplitude) (hlen : hi ≤ data.length) :
    lo ≤ (scanBand data lo hi).peakIndex
    ∧ (scanBand data lo hi).peakIndex < hi
    ∧ data.getD (scanBand data lo hi).peakIndex 0 = (scanBand data lo hi).peakAmplitude
    ∧ ∀ j, lo ≤ j → j < hi → data.getD j 0 = (scanBand data lo hi).peakAmplitude →
        (scanBand data lo hi).peakIndex ≤ j := by
  clear hlen
  obtain ⟨h1, h2, h3, h4⟩ := scanBand_peakIndex_spec data lo hi hpos
  refine ⟨h1, h2, h3, ?_⟩
  intro j hj1 hj2 hj3
  by_contra hcon
  have h5 := h4 j hj1 (by omega)
  omega

/-- Witness for C9 (amended): in the frame `[5, 7, 7]` over the band
`[0, 3)` the magnitude 7 is attained at bins 1 and 2 and the scan reports
the smaller one. -/
theorem peak_index_first_max_witness :
    0 < (scanBand [5, 7, 7] 0 3).peakAmplitude
    ∧ (scanBand [5, 7, 7] 0 3).peakIndex = 1
    ∧ (∀ j, 0 ≤ j → j < 3 → [5, 7, 7].getD j 0 = (scanBand [5, 7, 7] 0 3).peakAmplitude →
        (scanBand [5, 7, 7] 0 3).peakIndex ≤ j) := by
  have h := peak_index_first_max [5, 7, 7] 0 3
    (by norm_num [scanBand, scanStep, List.range']) (by norm_num)
  refine ⟨by norm_num [scanBand, scanStep, List.range'], ?_, h.2.2.2⟩
  norm_num [scanBand, scanStep, List.range']

/-- Counterexample to C9 as stated: at sample rate 300 and FFT size 3 the
band is `[1, 3)`; in the all-zero frame every band bin attains the maximal
magnitude 0, so the smallest such bin index is 1, yet `peakIndex` remains
0 — and with sensitivity 17 (thresholds -10 and -6) the detector even
emits an event whose `baseFrequencyHz` is `0 * (300/3) = 0`, not the
`1 * (300/3) = 100` of the lowest-frequency peak bin. -/
theorem peak_index_zero_band_cex :
    minIndexOf 300 3 = 1 ∧ maxIndexOf 300 3 = 3
    ∧ (∀ j, 1 ≤ j → j < 3 → [0, 0, 0].getD j 0 = (scanBand [0, 0, 0] 1 3).peakAmplitude)
    ∧ (scanBand [0, 0, 0] 1 3).peakIndex = 0
    ∧ processAudio [0, 0, 0] (-10) (-6) 300 3 = some ⟨0⟩
    ∧ (0 : ℚ) * (300 / 3) ≠ (1 : ℚ) * (300 / 3) := by
  refine ⟨by norm_num [minIndexOf, jsRound], by norm_num [maxIndexOf, jsRound]; decide,
    ?_, ?_, ?_, by norm_num⟩
  · intro j h1 h2
    interval_cases j <;> decide
  · decide
  · unfold processAudio
    rw [(by norm_num [minIndexOf, jsRound] : minIndexOf 300 3 = 1),
        (by norm_num [maxIndexOf, jsRound]; decide : maxIndexOf 300 3 = 3)]
    norm_num [scanBand, scanStep, List.range']

/-- Claim C2: for positive mass, `calculateRipeness` returns
`ripenessIndex = frequency^2 * massKg^(2/3)` (with `p` the value of the
mass power, pinned by `p^3 = massKg^2`), the clamped sweetness and score
formulas, and the anchor values: index 60000 gives score exactly 100 and
sweetness exactly 12, index 95000 gives score exactly 0. -/
theorem compute_formulas (massKg frequency p : ℚ) (hm : 0 < massKg)
    (hp : p ^ 3 = massKg ^ 2) :
    calculateRipeness massKg frequency p =
      some { baseFrequency := frequency
             ripenessIndex := frequency ^ 2 * p
             ripenessScore := scoreOf (frequency ^ 2 * p)
             sweetnessBrix := sweetnessOf (frequency ^ 2 * p)
             verdict := verdictOf (frequency ^ 2 * p)
             ripenessClass := ripenessClassOf (frequency ^ 2 * p) }
    ∧ scoreOf (frequency ^ 2 * p)
        = max 0 (min 100 (100 * (95000 - frequency ^ 2 * p) / (95000 - 60000)))
    ∧ sweetnessOf (frequency ^ 2 * p)
        = max 5 (min 13 (12 - 4 * (frequency ^ 2 * p - 60000) / 30000))
    ∧ scoreOf 60000 = 100 ∧ sweetnessOf 60000 = 12 ∧ scoreOf 95000 = 0 := by
  clear hp
  refine ⟨?_, rfl, ?_, ?_, ?_, ?_⟩
  · unfold calculateRipeness
    rw [if_neg (not_le.mpr hm)]
  · unfold sweetnessOf
    ring_nf
  · unfold scoreOf; norm_num
  · unfold sweetnessOf; norm_num
  · unfold scoreOf; norm_num

/-- Witness for C2: mass 1 kg (so `p = 1`) and a 120 Hz tap give ripeness
index 14400 with the formula fields. -/
theorem compute_formulas_witness :
    (0 : ℚ) < 1 ∧ (1 : ℚ) ^ 3 = 1 ^ 2
    ∧ calculateRipeness 1 120 1 =
        some { baseFrequency := 120
               ripenessIndex := 14400
               ripenessScore := scoreOf 14400
               sweetnessBrix := sweetnessOf 14400
               verdict := verdictOf 14400
               ripenessClass := ripenessClassOf 14400 } := by
  refine ⟨by norm_num, by norm_num, ?_⟩
  have h := (compute_formulas 1 120 1 (by norm_num) (by norm_num)).1
  norm_num at h
  convert h using 4 <;> norm_num

/-- Claim C3: the verdict class of `calculateRipeness` is "ripe" exactly
when `ripenessIndex < 74000`, "borderline" exactly when
`74000 ≤ ripenessIndex < 85000`, and "unripe" exactly when
`ripenessIndex ≥ 85000`; the boundaries 74000 and 85000 classify as
"borderline" and "unripe" respectively. -/
theorem verdict_classification (massKg frequency p ri : ℚ) (hm : 0 < massKg)
    (hri : ri = frequency ^ 2 * p) :
    (calculateRipeness massKg frequency p).map RipenessResult.ripenessClass
        = some (ripenessClassOf ri)
    ∧ (ripenessClassOf ri = "ripe" ↔ ri < 74000)
    ∧ (ripenessClassOf ri = "borderline" ↔ 74000 ≤ ri ∧ ri < 85000)
    ∧ (ripenessClassOf ri = "unripe" ↔ 85000 ≤ ri)
    ∧ ripenessClassOf 74000 = "borderline"
    ∧ ripenessClassOf 85000 = "unripe" := by
  subst hri
  refine ⟨?_, ?_, ?_, ?_, by norm_num [ripenessClassOf], by norm_num [ripenessClassOf]⟩
  · unfold calculateRipeness
    rw [if_neg (not_le.mpr hm)]
    rfl
  all_goals unfold ripenessClassOf
  all_goals by_cases h74 : frequency ^ 2 * p < 74000
  case pos => rw [if_pos h74]; exact iff_of_true rfl h74
  case neg =>
    rw [if_neg h74]
    by_cases h85 : frequency ^ 2 * p < 85000
    · rw [if_pos h85]; exact iff_of_false (by decide) h74
    · rw [if_neg h85]; exact iff_of_false (by decide) h74
  case pos =>
    rw [if_pos h74]
    exact iff_of_false (by decide) (fun hand => absurd hand.1 (not_le.mpr h74))
  case neg =>
    rw [if_neg h74]
    by_cases h85 : frequency ^ 2 * p < 85000
    · rw [if_pos h85]; exact iff_of_true rfl ⟨not_lt.mp h74, h85⟩
    · rw [if_neg h85]; exact iff_of_false (by decide) (fun hand => absurd hand.2 h85)
  case pos =>
    rw [if_pos h74]
    exact iff_of_false (by decide) (fun hand => absurd h74 (not_lt.mpr (by linarith)))
  case neg =>
    rw [if_neg h74]
    by_cases h85 : frequency ^ 2 * p < 85000
    · rw [if_pos h85]; exact iff_of_false (by decide) (fun hand => absurd h85 (not_lt.mpr hand))
    · rw [if_neg h85]; exact iff_of_true rfl (not_lt.mp h85)

/-- Witness for C3: ripeness index 14400 (mass 1 kg, 120 Hz) classifies as
"ripe", and the two boundary indices classify as "borderline" and
"unripe". -/
theorem verdict_classification_witness :
    (calculateRipeness 1 120 1).map RipenessResult.ripenessClass
        = some (ripenessClassOf 14400)
    ∧ (ripenessClassOf 14400 = "ripe" ↔ (14400 : ℚ) < 74000)
    ∧ ripenessClassOf 74000 = "borderline"
    ∧ ripenessClassOf 85000 = "unripe" := by
  have h := verdict_classification 1 120 1 14400 (by norm_num) (by norm_num)
  exact ⟨h.1, h.2.1, h.2.2.2.2.1, h.2.2.2.2.2⟩

/-- Claim C8: on the dial domain `[1, 20]` the thresholds are
`absoluteThreshold s = 160 - 10 s` and `relativeThreshold s = 45 - 3 s`,
and both strictly decrease as sensitivity increases. -/
theorem threshold_formulas_monotone (s t : ℚ) (hs1 : 1 ≤ s) (hs20 : s ≤ 20)
    (ht1 : 1 ≤ t) (ht20 : t ≤ 20) (hst : s < t) :
    absoluteThreshold s = 160 - 10 * s ∧ relativeThreshold s = 45 - 3 * s
    ∧ absoluteThreshold t < absoluteThreshold s
    ∧ relativeThreshold t < relativeThreshold s := by
  unfold absoluteThreshold relativeThreshold
  refine ⟨by ring, by ring, by linarith, by linarith⟩

/-- Witness for C8: the endpoints of the dial domain. -/
theorem threshold_formulas_monotone_witness :
    absoluteThreshold 1 = 150 ∧ relativeThreshold 1 = 42
    ∧ absoluteThreshold 20 < absoluteThreshold 1
    ∧ relativeThreshold 20 < relativeThreshold 1 := by
  have h := threshold_formulas_monotone 1 20 (by norm_num) (by norm_num)
    (by norm_num) (by norm_num) (by norm_num)
  refine ⟨by rw [h.1]; norm_num, by rw [h.2.1]; norm_num, h.2.2.1, h.2.2.2⟩

/-- Claim C10: for a fixed positive mass the ripeness index is monotone
non-decreasing in the tap frequency (on nonnegative frequencies), and both
the score and the sweetness estimate are monotone non-increasing in the
ripeness index; hence a higher-frequency tap never scores higher or
sweeter. -/
theorem frequency_monotonicity (massKg p f1 f2 r1 r2 : ℚ) (hm : 0 < massKg)
    (hp : p ^ 3 = massKg ^ 2) (hf0 : 0 ≤ f1) (hf : f1 ≤ f2) (hr : r1 ≤ r2) :
    f1 ^ 2 * p ≤ f2 ^ 2 * p
    ∧ scoreOf (f2 ^ 2 * p) ≤ scoreOf (f1 ^ 2 * p)
    ∧ sweetnessOf (f2 ^ 2 * p) ≤ sweetnessOf (f1 ^ 2 * p)
    ∧ scoreOf r2 ≤ scoreOf r1
    ∧ sweetnessOf r2 ≤ sweetnessOf r1 := by
  have hp0 : 0 < p := pow23_pos massKg p hm hp
  have hmono : f1 ^ 2 * p ≤ f2 ^ 2 * p :=
    mul_le_mul_of_nonneg_right (pow_le_pow_left₀ hf0 hf 2) hp0.le
  exact ⟨hmono, scoreOf_antitone _ _ hmono, sweetnessOf_antitone _ _ hmono,
    scoreOf_antitone _ _ hr, sweetnessOf_antitone _ _ hr⟩

/-- Witness for C10: mass 8 kg (so `p = 4`, since `4^3 = 8^2`), tap
frequencies 1 and 2, ripeness indices 0 and 1. -/
theorem frequency_monotonicity_witness :
    (1 : ℚ) ^ 2 * 4 ≤ (2 : ℚ) ^ 2 * 4
    ∧ scoreOf ((2 : ℚ) ^ 2 * 4) ≤ scoreOf ((1 : ℚ) ^ 2 * 4)
    ∧ sweetnessOf ((2 : ℚ) ^ 2 * 4) ≤ sweetnessOf ((1 : ℚ) ^ 2 * 4)
    ∧ scoreOf 1 ≤ scoreOf 0
    ∧ sweetnessOf 1 ≤ sweetnessOf 0 :=
  frequency_monotonicity 8 4 1 2 0 1 (by norm_num) (by norm_num)
    (by norm_num) (by norm_num) (by norm_num)

/-- Counterexample to C4: the threshold computation applies no clamp.  The
spec-side clamp sends sensitivity 0 to 1, but `absoluteThreshold 0 = 160`
and `relativeThreshold 0 = 45` differ from the values 150 and 42 at the
clamped input, so a sensitivity of 0 does not behave like 1. -/
theorem sensitivity_no_clamp_cex :
    specClamp 1 20 0 = 1
    ∧ absoluteThreshold 0 = 160 ∧ relativeThreshold 0 = 45
    ∧ absoluteThreshold (specClamp 1 20 0) = 150
    ∧ relativeThreshold (specClamp 1 20 0) = 42
    ∧ absoluteThreshold 0 ≠ absoluteThreshold (specClamp 1 20 0)
    ∧ relativeThreshold 0 ≠ relativeThreshold (specClamp 1 20 0) := by
  norm_num [specClamp, absoluteThreshold, relativeThreshold]

/-- Claim C4 (amended): the threshold functions apply the linear formulas
to the raw sensitivity with no clamping, and are injective — distinct
sensitivities always give distinct thresholds, so no out-of-range input can
behave like its clamped value. -/
theorem thresholds_injective (s t : ℚ) (hst : s ≠ t) :
    absoluteThreshold s = 160 - 10 * s ∧ relativeThreshold s = 45 - 3 * s
    ∧ absoluteThreshold s ≠ absoluteThreshold t
    ∧ relativeThreshold s ≠ relativeThreshold t := by
  unfold absoluteThreshold relativeThreshold
  refine ⟨by ring, by ring, ?_, ?_⟩ <;> intro hcon <;> apply hst <;> linarith

/-- Witness for C4 (amended): sensitivities 0 and 1. -/
theorem thresholds_injective_witness :
    absoluteThreshold 0 = 160 - 10 * 0 ∧ relativeThreshold 0 = 45 - 3 * 0
    ∧ absoluteThreshold 0 ≠ absoluteThreshold 1
    ∧ relativeThreshold 0 ≠ relativeThreshold 1 :=
  thresholds_injective 0 1 (by norm_num)

/-- Counterexample to C5: `startDetection` performs no mass validation.
Invoked with `massKg = 0` (which `isMassValid` marks invalid), a supported
browser and a successful capture, it still transitions to listening and
records no error at all. -/
theorem start_ignores_mass_cex :
    isMassValid 0 = false
    ∧ startDetection true true ⟨0, none, none, false⟩ = ⟨0, none, none, true⟩
    ∧ (startDetection true true ⟨0, none, none, false⟩).isListening = true
    ∧ (startDetection true true ⟨0, none, none, false⟩).error = none := by
  refine ⟨by norm_num [isMassValid], ?_, ?_, ?_⟩ <;> simp [startDetection]

/-- Claim C5 (amended): `startDetection` never reads the mass: for any
state with `massKg ≤ 0` it still transitions to listening, clears the
error and the previous result; the only mass guard in the source is the
`isMassValid` flag (false for such a mass), which merely disables the
start button in the template. -/
theorem start_ignores_mass (st : AppState) (hm : st.massKg ≤ 0) :
    (startDetection true true st).isListening = true
    ∧ (startDetection true true st).error = none
    ∧ (startDetection true true st).result = none
    ∧ isMassValid st.massKg = false := by
  refine ⟨?_, ?_, ?_, ?_⟩
  · simp [startDetection]
  · simp [startDetection]
  · simp [startDetection]
  · exact decide_eq_false (not_lt.mpr hm)

/-- Witness for C5 (amended): a state with zero mass and stale result and
error values. -/
theorem start_ignores_mass_witness :
    (startDetection true true
        ⟨0, some ⟨1, 1, 1, 1, "a", "b"⟩, some ("stale"), false⟩).isListening = true
    ∧ (startDetection true true
        ⟨0, some ⟨1, 1, 1, 1, "a", "b"⟩, some ("stale"), false⟩).error = none
    ∧ (startDetection true true
        ⟨0, some ⟨1, 1, 1, 1, "a", "b"⟩, some ("stale"), false⟩).result = none
    ∧ isMassValid (AppState.massKg
        ⟨0, some ⟨1, 1, 1, 1, "a", "b"⟩, some ("stale"), false⟩) = false :=
  start_ignores_mass ⟨0, some ⟨1, 1, 1, 1, "a", "b"⟩, some ("stale"), false⟩ (by norm_num)

/-- Counterexample to C6: with `massKg = 0` the computation does not fail
with any error — it silently does nothing.  `calculateRipeness` returns no
result, and the state effect leaves the reactive state (including `error`,
which stays `none`) completely unchanged. -/
theorem compute_silent_guard_cex :
    calculateRipeness 0 120 1 = none
    ∧ runCalculateRipeness 120 1 ⟨0, none, none, true⟩ = ⟨0, none, none, true⟩
    ∧ (runCalculateRipeness 120 1 ⟨0, none, none, true⟩).error = none
    ∧ (runCalculateRipeness 120 1 ⟨0, none, none, true⟩).result = none := by
  have h : calculateRipeness 0 120 1 = none := by
    unfold calculateRipeness
    norm_num
  refine ⟨h, ?_, ?_, ?_⟩ <;> simp [runCalculateRipeness, h]

/-- Claim C6 (amended): for every `massKg ≤ 0`, `calculateRipeness`
returns without producing a `RipenessResult` and without recording any
error: the early-return guard leaves the whole state unchanged (a silent
no-op, not a `ValidationError`). -/
theorem compute_silent_guard (massKg frequency p : ℚ) (st : AppState)
    (hm : massKg ≤ 0) (hst : st.massKg = massKg) :
    calculateRipeness massKg frequency p = none
    ∧ runCalculateRipeness frequency p st = st := by
  have h : calculateRipeness massKg frequency p = none := by
    unfold calculateRipeness
    rw [if_pos hm]
  refine ⟨h, ?_⟩
  unfold runCalculateRipeness
  rw [hst, h]

/-- Witness for C6 (amended): mass 0, frequency 120, a state carrying an
unrelated earlier error that stays untouched. -/
theorem compute_silent_guard_witness :
    calculateRipeness 0 120 1 = none
    ∧ runCalculateRipeness 120 1 ⟨0, none, some ("err"), false⟩
        = ⟨0, none, some ("err"), false⟩ :=
  compute_silent_guard 0 120 1 ⟨0, none, some ("err"), false⟩ (by norm_num) rfl
